import Mathlib

/-!
Shallow embedding of the LIRR track-assignment predictor (src/server.js,
GTFS-RT/bucketed-learning variant — the first service in the file, the one the
claims reference by line number).

Modelling conventions:
- JavaScript numbers where they are integral (counts, epoch milliseconds,
  epoch seconds) are Nat / Int; Math.round of a nonnegative rational a/b is
  the exact half-up rounding floor(a/b + 1/2) computed in Nat arithmetic.
- The in-memory Map is an insertion-ordered association list: Map.set updates
  in place or appends; Map.get walks the list.
- JS object property enumeration (Object.entries) puts canonical array-index
  keys first in ascending numeric order, then the remaining string keys in
  insertion order; this is modelled by jsEntries.
- Array.prototype.sort with comparator (a, b) => b.count - a.count is stable
  (ES2019); it is modelled by a stable insertion sort descending on counts.
- Fallible/asynchronous steps are passed their outcomes explicitly (oracles),
  and a thrown JS exception is an Except.error value.
-/

/-- JS truthiness of an optional numeric field: undefined and 0 are falsy. -/
def jsTruthyNat : Option Nat → Bool
  | none => false
  | some n => n != 0

/-- JS truthiness of an optional string field: undefined and the empty string
are falsy. -/
def jsTruthyStr : Option String → Bool
  | none => false
  | some s => s != ""

/-- Digits to the natural number they denote in base 10. -/
def digitsToNat (cs : List Char) : Nat :=
  cs.foldl (fun n c => 10 * n + (c.toNat - 48)) 0

/-- Model of JavaScript parseInt on base-10 input: skip leading whitespace,
allow one sign character, then read a maximal run of leading digits; a result
with no digits is NaN, modelled as none (every NaN comparison is false). -/
def jsParseInt (s : String) : Option Int :=
  let cs := s.data.dropWhile (fun c => c == ' ' || c == '\t' || c == '\n' || c == '\r')
  match cs with
  | '-' :: rest =>
    let ds := rest.takeWhile Char.isDigit
    if ds.isEmpty then none else some (-(digitsToNat ds : Int))
  | '+' :: rest =>
    let ds := rest.takeWhile Char.isDigit
    if ds.isEmpty then none else some (digitsToNat ds)
  | _ =>
    let ds := cs.takeWhile Char.isDigit
    if ds.isEmpty then none else some (digitsToNat ds)

/-- isValidTrack (server.js 64-67): parseInt(track) must lie in 1..21. -/
def isValidTrack (track : String) : Bool :=
  match jsParseInt track with
  | none => false
  | some n => decide (1 ≤ n) && decide (n ≤ 21)

/-- The in-memory storage Map, keyed by strings. -/
abbrev StoreMap (α : Type) := List (String × α)

/-- JS Map.set: update an existing key in place, else append. -/
def mapSet {α : Type} : StoreMap α → String → α → StoreMap α
  | [], k, v => [(k, v)]
  | (k2, v2) :: rest, k, v =>
    if k2 = k then (k, v) :: rest else (k2, v2) :: mapSet rest k v

/-- JS Map.get: first binding of the key, if any. -/
def mapGet {α : Type} : StoreMap α → String → Option α
  | [], _ => none
  | (k2, v2) :: rest, k => if k2 = k then some v2 else mapGet rest k

/-- setStorage (server.js 99-109): Map.set, then return true. -/
def setStorage {α : Type} (s : StoreMap α) (k : String) (v : α) : Bool × StoreMap α :=
  (true, mapSet s k v)

/-- getStorage (server.js 111-118): memoryStorage.get(key) || null. The JS null
result is modelled as none, so a stored falsy value and an absent key both come
back as none. The truthiness test of the stored value type is a parameter. -/
def getStorage {α : Type} (truthy : α → Bool) (s : StoreMap α) (k : String) : Option α :=
  match mapGet s k with
  | none => none
  | some v => if truthy v then some v else none

/-- A fragment of the JavaScript value universe, sufficient to model the
truthiness of values a caller might store. -/
inductive JsValue where
  | nullv
  | undef
  | boolean (b : Bool)
  | number (n : Int)
  | str (s : String)
  | obj (id : Nat)
deriving DecidableEq

/-- JS truthiness of a JsValue. -/
def jsTruthy : JsValue → Bool
  | .nullv => false
  | .undef => false
  | .boolean b => b
  | .number n => n != 0
  | .str s => s != ""
  | .obj _ => true

/-- Observable trace of one call to fetchMTAData. -/
structure FetchRun where
  result : Option Nat
  failedIncrement : Nat
  sleeps : List Nat
  attempts : Nat
deriving DecidableEq

/-- fetchMTAData retry loop (server.js 121-153) with the network modelled as an
oracle from attempt index to an optional payload; maxRetries = 3, so the
attempt == maxRetries - 1 test is attempt == 2. The fuel argument mirrors the
bound of the for loop. -/
def fetchAux (o : Nat → Option Nat) : Nat → Nat → FetchRun
  | _, 0 => ⟨none, 0, [], 0⟩
  | attempt, fuel + 1 =>
    match o attempt with
    | some payload => ⟨some payload, 0, [], 1⟩
    | none =>
      if attempt = 2 then ⟨none, 1, [], 1⟩
      else
        let r := fetchAux o (attempt + 1) fuel
        ⟨r.result, r.failedIncrement, 1000 * 2 ^ attempt :: r.sleeps, r.attempts + 1⟩

/-- fetchMTAData (server.js 121-153). -/
def fetchMTAData (o : Nat → Option Nat) : FetchRun :=
  fetchAux o 0 3

/-- Regex helper: the tail of pattern 1, an underscore followed by at least one
digit; the capture group (\d+) is greedy, so it takes the maximal digit run. -/
def matchUnderscoreDigits : List Char → Option String
  | '_' :: rest =>
    let ds := rest.takeWhile Char.isDigit
    if ds.isEmpty then none else some (String.mk ds)
  | _ => none

/-- Regex /(?:NYK?|NY)_(\d+)/i matched at a fixed position: NY with an optional
K (tried greedily first, with backtracking), then an underscore and digits,
case-insensitively. -/
def matchNYAt : List Char → Option String
  | c1 :: c2 :: rest =>
    if c1.toLower == 'n' && c2.toLower == 'y' then
      match rest with
      | c3 :: rest2 =>
        if c3.toLower == 'k' then
          match matchUnderscoreDigits rest2 with
          | some t => some t
          | none => matchUnderscoreDigits rest
        else matchUnderscoreDigits rest
      | [] => none
    else none
  | _ => none

/-- Leftmost match of pattern 1 over the whole identifier. -/
def scanNY : List Char → Option String
  | [] => none
  | c :: rest =>
    match matchNYAt (c :: rest) with
    | some t => some t
    | none => scanNY rest

/-- Regex /(\d+)$/: the maximal trailing digit run. -/
def trailingDigits (cs : List Char) : List Char :=
  (cs.reverse.takeWhile Char.isDigit).reverse

/-- Regex /\d+/: the first (leftmost, maximal) digit run. -/
def firstDigitRun (cs : List Char) : List Char :=
  (cs.dropWhile (fun c => !c.isDigit)).takeWhile Char.isDigit

/-- Keep a candidate only if it validates against the platform range. -/
def checkValid : Option String → Option String
  | some t => if isValidTrack t then some t else none
  | none => none

/-- A nonempty character run as a candidate string. -/
def nonEmptyStr (cs : List Char) : Option String :=
  if cs.isEmpty then none else some (String.mk cs)

/-- extractTrack (server.js 70-96): empty/absent stop id yields null; otherwise
try the prefixed NY/NYK token, then the trailing digit run, then the first
embedded digit run, each validated against the 1..21 platform range. -/
def extractTrack (stopId : String) : Option String :=
  if stopId = "" then none
  else
    match checkValid (scanNY stopId.data) with
    | some t => some t
    | none =>
      match checkValid (nonEmptyStr (trailingDigits stopId.data)) with
      | some t => some t
      | none => checkValid (nonEmptyStr (firstDigitRun stopId.data))

/-- One stopTimeUpdate entry of a decoded GTFS-RT trip update. Times are epoch
seconds (undefined when the arrival/departure message is absent). -/
structure StopTimeUpdate where
  stopId : Option String
  platformCode : Option String
  arrivalTime : Option Nat
  departureTime : Option Nat
deriving DecidableEq

/-- The trip header and stop list of a tripUpdate entity. -/
structure TripUpdate where
  tripId : Option String
  routeId : Option String
  stopTimeUpdate : List StopTimeUpdate
deriving DecidableEq

/-- A feed entity; entities without a tripUpdate are skipped. -/
structure FeedEntity where
  tripUpdate : Option TripUpdate
deriving DecidableEq

/-- DESTINATIONS route-id lookup table (server.js 15-28). -/
def DESTINATIONS : List (String × String) :=
  [("1", "Babylon"), ("2", "Far Rockaway"), ("3", "Hempstead"), ("4", "Long Beach"),
   ("5", "West Hempstead"), ("6", "Oyster Bay"), ("7", "Port Jefferson"),
   ("8", "Ronkonkoma"), ("9", "Greenport"), ("10", "Port Washington"),
   ("11", "Huntington"), ("12", "Montauk")]

/-- DESTINATIONS[routeId]: undefined route id or unknown route id resolve to
undefined. -/
def destinationFor : Option String → Option String
  | none => none
  | some rid => (DESTINATIONS.find? (fun kv => kv.1 = rid)).map (fun kv => kv.2)

/-- tripId.split('_')[0]: everything before the first underscore. -/
def jsSplitHead (s : String) : String :=
  String.mk (s.data.takeWhile (fun c => c != '_'))

/-- trip.tripId?.split('_')[0] || null (server.js 184): undefined tripId or an
empty head segment give null. -/
def trainNumOf : Option String → Option String
  | none => none
  | some tid =>
    let h := jsSplitHead tid
    if h = "" then none else some h

/-- The || operator on two optional numbers: the first when truthy, else the
second (which is then used whatever its value). -/
def jsOrNum (a b : Option Nat) : Option Nat :=
  if jsTruthyNat a then a else b

/-- A normalized track assignment as pushed by parseFeed (server.js 218-226).
timestamp is epoch milliseconds; none models the JS Invalid Date produced when
neither a departure nor an arrival time is available. -/
structure TrackAssignment where
  destination : String
  track : String
  trainNum : Option String
  routeId : Option String
  isArrival : Bool
  isDeparture : Bool
  timestamp : Option Nat
deriving DecidableEq

/-- The per-stop body of parseFeed (server.js 187-230): require a truthy
platformCode, validate it as a track, require a resolved destination, then push
the assignment; arrival/departure times only shape the flags and the timestamp,
never whether the stop is pushed. -/
def stopObs (destination : Option String) (trainNum : Option String)
    (routeId : Option String) (stop : StopTimeUpdate) : Option TrackAssignment :=
  match stop.platformCode with
  | none => none
  | some pc =>
    if pc = "" then none
    else if isValidTrack pc then
      match destination with
      | none => none
      | some d =>
        some { destination := d
               track := pc
               trainNum := trainNum
               routeId := routeId
               isArrival := jsTruthyNat stop.arrivalTime && !jsTruthyNat stop.departureTime
               isDeparture := jsTruthyNat stop.departureTime
               timestamp := (jsOrNum stop.departureTime stop.arrivalTime).map (fun t => t * 1000) }
    else none

/-- parseFeed (server.js 156-250) on an already-decoded feed: walk the
tripUpdate entities and collect the per-stop observations in order. -/
def parseFeed (feed : List FeedEntity) : List TrackAssignment :=
  feed.flatMap (fun entity =>
    match entity.tripUpdate with
    | none => []
    | some tu =>
      tu.stopTimeUpdate.filterMap
        (stopObs (destinationFor tu.routeId) (trainNumOf tu.tripId) tu.routeId))

/-- A stop with a valid platform but neither an arrival nor a departure time:
the claim says it is discarded, the code pushes it anyway. -/
def cexStopNoTimes : StopTimeUpdate :=
  { stopId := some "NYK", platformCode := some "13", arrivalTime := none, departureTime := none }

def cexFeedNoTimes : List FeedEntity :=
  [{ tripUpdate := some { tripId := some "2739_X", routeId := some "1",
                          stopTimeUpdate := [cexStopNoTimes] } }]

/-- The recent-arrival record stored at arrival:{destination}:recent
(server.js 302-309); timestamp is epoch milliseconds. -/
structure RecentArrival where
  track : String
  timestamp : Nat
  trainNum : Option String
deriving DecidableEq

/-- The learned pattern object (server.js 267-297). tracks is the
insertion-ordered property list of the JS counts object; lastSeen is the epoch
millisecond instant behind the stored ISO string. -/
structure TrainPattern where
  tracks : List (String × Nat)
  mostCommon : String
  confidence : Nat
  count : Nat
  alternatives : List String
  lastSeen : Nat
deriving DecidableEq

/-- The storageStats object (server.js 48-54); lastUpdate is the epoch
millisecond instant behind the stored ISO string. -/
structure StatsObj where
  totalPatterns : Nat
  lastUpdate : Option Nat
  successfulFetches : Nat
  failedFetches : Nat
  isHealthy : Bool
deriving DecidableEq

/-- The values the service stores in memoryStorage. -/
inductive StoredValue where
  | pattern (p : TrainPattern)
  | arrival (a : RecentArrival)
  | stats (st : StatsObj)
deriving DecidableEq

/-- Every stored value is a JS object, hence truthy. -/
def storedTruthy : StoredValue → Bool := fun _ => true

abbrev Store := StoreMap StoredValue

/-- pattern.tracks[track] = (pattern.tracks[track] || 0) + 1 on the
insertion-ordered property list: update an existing key in place, else append
the new key with count 1. -/
def bumpTrack : List (String × Nat) → String → List (String × Nat)
  | [], t => [(t, 1)]
  | (t2, c) :: rest, t =>
    if t2 = t then (t2, c + 1) :: rest else (t2, c) :: bumpTrack rest t

/-- A canonical array-index property key: nonempty, all digits, no leading zero
except "0" itself, value below 2^32 - 1. These keys enumerate first, in
ascending numeric order, under Object.entries. -/
def isArrayIndexKey (s : String) : Bool :=
  match s.data with
  | [] => false
  | ['0'] => true
  | c :: rest =>
    c.isDigit && c != '0' && rest.all Char.isDigit && decide (digitsToNat s.data < 4294967295)

/-- Numeric value of an array-index key. -/
def keyNum (s : String) : Nat := digitsToNat s.data

def insertByKeyAsc (p : String × Nat) : List (String × Nat) → List (String × Nat)
  | [] => [p]
  | q :: rest =>
    if keyNum q.1 < keyNum p.1 then q :: insertByKeyAsc p rest else p :: q :: rest

/-- Array-index keys in ascending numeric order. -/
def sortByKeyAsc : List (String × Nat) → List (String × Nat)
  | [] => []
  | p :: rest => insertByKeyAsc p (sortByKeyAsc rest)

/-- Object.entries enumeration order over the property list: array-index keys
first in ascending numeric order, then the other keys in insertion order. -/
def jsEntries (l : List (String × Nat)) : List (String × Nat) :=
  sortByKeyAsc (l.filter (fun kv => isArrayIndexKey kv.1))
    ++ l.filter (fun kv => !isArrayIndexKey kv.1)

/-- One step of the stable insertion sort for sort((a, b) => b[1] - a[1]):
a new element goes in front of the first element whose count is not larger. -/
def insertByCountDesc (p : String × Nat) : List (String × Nat) → List (String × Nat)
  | [] => [p]
  | q :: rest => if p.2 < q.2 then q :: insertByCountDesc p rest else p :: q :: rest

/-- Stable descending sort on counts, as the ES2019-stable Array sort with
comparator (a, b) => b[1] - a[1]. -/
def sortByCountDesc : List (String × Nat) → List (String × Nat)
  | [] => []
  | p :: rest => insertByCountDesc p (sortByCountDesc rest)

/-- Math.round((num / den) * 100) for naturals with den > 0, computed exactly:
floor(100 * num / den + 1/2) = (200 * num + den) / (2 * den). -/
def jsRoundFrac (num den : Nat) : Nat := (200 * num + den) / (2 * den)

/-- Date#getDay for a UTC-configured process (the Unix epoch was a Thursday). -/
def jsGetDay (ms : Nat) : Nat := (ms / 86400000 + 4) % 7

/-- Date#getHours for a UTC-configured process. -/
def jsGetHours (ms : Nat) : Nat := ms / 3600000 % 24

/-- A null trainNum interpolates into the template literal as "null". -/
def trainNumStr : Option String → String
  | some t => t
  | none => "null"

/-- The per-train pattern storage key (server.js 262). -/
def bucketKey (destination : String) (dayOfWeek hour : Nat) (trainNum : Option String) : String :=
  "track:" ++ destination ++ ":" ++ toString dayOfWeek ++ ":" ++ toString hour ++ ":"
    ++ trainNumStr trainNum

/-- The fresh pattern of server.js 267-275. -/
def initPattern (track : String) (tsMs : Nat) : TrainPattern :=
  { tracks := [], mostCommon := track, confidence := 0, count := 0,
    alternatives := [], lastSeen := tsMs }

/-- The mutation of server.js 278-297 applied to a loaded (or fresh) pattern:
bump the observed track, recompute mostCommon, confidence and alternatives from
the count-sorted Object.entries view. -/
def updatePattern (p : TrainPattern) (track : String) (tsMs : Nat) : TrainPattern :=
  let tracks := bumpTrack p.tracks track
  let count := p.count + 1
  let sorted := sortByCountDesc (jsEntries tracks)
  let top := sorted.headD ("", 0)
  { tracks := tracks
    mostCommon := top.1
    confidence := min 95 (jsRoundFrac top.2 count)
    count := count
    alternatives := ((sorted.drop 1).filter (fun kv => decide (1 < kv.2))).map (fun kv => kv.1)
    lastSeen := tsMs }

/-- The set calls performed by one storePattern call (server.js 253-317), in
order. A none timestamp is the Invalid Date case: timestamp.toISOString()
throws before any set, the local catch swallows it, and nothing is stored. -/
def storePatternWrites (a : TrackAssignment) (s : Store) : List (String × StoredValue) :=
  match a.timestamp with
  | none => []
  | some ts =>
    let key := bucketKey a.destination (jsGetDay ts) (jsGetHours ts) a.trainNum
    let p0 := match getStorage storedTruthy s key with
      | some (.pattern p) => p
      | _ => initPattern a.track ts
    (key, .pattern (updatePattern p0 a.track ts)) ::
      (if a.isArrival then
        [("arrival:" ++ a.destination ++ ":recent",
          .arrival { track := a.track, timestamp := ts, trainNum := a.trainNum })]
      else [])

def applyWrites (s : Store) (ws : List (String × StoredValue)) : Store :=
  ws.foldl (fun acc kv => mapSet acc kv.1 kv.2) s

/-- storePattern's effect on the store. -/
def storePattern (a : TrackAssignment) (s : Store) : Store :=
  applyWrites s (storePatternWrites a s)

/-- updateStats (server.js 320-337). now1 is the Date.now() of line 322 (stored
into lastUpdate through an ISO string), now2 the Date.now() of line 323, so in
a real run now2 - now1 is the sub-millisecond gap between adjacent statements.
isHealthy compares against the lastUpdate value just written. -/
def updateStats (now1 now2 : Nat) (st : StatsObj) (s : Store) : StatsObj × Store :=
  let st1 : StatsObj :=
    { st with lastUpdate := some now1
              isHealthy := decide ((now2 : Int) - (now1 : Int) < 300000)
              totalPatterns := (s.filter (fun kv => kv.1.startsWith "track:")).length }
  (st1, mapSet s "stats:learning" (StoredValue.stats st1))

/-- Initial storageStats (server.js 48-54). -/
def initialStats : StatsObj :=
  { totalPatterns := 0, lastUpdate := none, successfulFetches := 0, failedFetches := 0,
    isHealthy := true }

/-- Externally determined outcome of one learning cycle: an unexpected thrown
exception anywhere in the body (if any), the fetched feed (none when the
fetcher gave up), the failedFetches increments the fetcher performed, and the
two clock reads of updateStats. -/
structure CycleOutcome where
  thrown : Option String
  feed : Option (List FeedEntity)
  fetchFailedIncr : Nat
  now1 : Nat
  now2 : Nat

/-- The try-block body of one learning cycle (server.js 344-359): apply the
fetcher's failedFetches increments; on a non-null buffer parse it, store every
assignment, bump successfulFetches and run updateStats. -/
def learningCycleOk (env : CycleOutcome) (st : StatsObj) (s : Store) : StatsObj × Store :=
  let stf : StatsObj := { st with failedFetches := st.failedFetches + env.fetchFailedIncr }
  match env.feed with
  | none => (stf, s)
  | some feed =>
    let s2 := (parseFeed feed).foldl (fun acc a => storePattern a acc) s
    let st2 : StatsObj := { stf with successfulFetches := stf.successfulFetches + 1 }
    updateStats env.now1 env.now2 st2 s2

/-- One iteration of the while(true) loop (server.js 343-368): the try/catch
boundary plus the unconditional sleep(POLL_INTERVAL). A thrown exception is
caught, logged and turned into failedFetches + 1; the returned number is the
sleep duration the cycle performs afterwards in every case. -/
def learningCycle (env : CycleOutcome) (st : StatsObj) (s : Store) :
    (StatsObj × Store) × Nat :=
  match env.thrown with
  | some _ => (({ st with failedFetches := st.failedFetches + 1 }, s), 30000)
  | none => (learningCycleOk env st s, 30000)

/-- The loop state after n completed cycles, with the log of performed sleeps. -/
def learningLoopRun (envs : Nat → CycleOutcome) : Nat → (StatsObj × Store) × List Nat
  | 0 => ((initialStats, []), [])
  | n + 1 =>
    let prev := learningLoopRun envs n
    let step := learningCycle (envs n) prev.1.1 prev.1.2
    (step.1, prev.2 ++ [step.2])

/-- SEED_PATTERNS (server.js 31-44). -/
def SEED_PATTERNS : List (String × List Nat) :=
  [("Babylon", [13, 15, 17]), ("Port Washington", [4, 6, 8]), ("Huntington", [9, 11, 13]),
   ("Ronkonkoma", [13, 15, 17, 19]), ("Hempstead", [1, 3, 5]), ("Far Rockaway", [1, 3, 5]),
   ("Port Jefferson", [9, 11, 13]), ("Long Beach", [1, 3, 5]), ("West Hempstead", [1, 3, 5]),
   ("Oyster Bay", [4, 6, 8]), ("Greenport", [9, 11]), ("Montauk", [13, 15, 17])]

/-- SEED_PATTERNS[destination]. -/
def seedFor (d : String) : Option (List Nat) :=
  (SEED_PATTERNS.find? (fun kv => kv.1 = d)).map (fun kv => kv.2)

/-- One prediction object of the /api/predict response. -/
structure Prediction where
  method : String
  track : Option String
  tracks : List Nat
  confidence : Nat
  alternatives : Option (List String)
  reason : String
deriving DecidableEq

/-- Math.round(num / den) for integers with den > 0, computed exactly as
floor(num / den + 1/2). -/
def jsRoundIntFrac (num den : Int) : Int := Int.fdiv (2 * num + den) (2 * den)

/-- Array.prototype.join(', ') on a list of numbers. -/
def joinNats : List Nat → String
  | [] => ""
  | [n] => toString n
  | n :: rest => toString n ++ ", " ++ joinNats rest

/-- Method 1 of the predict handler (server.js 386-403): inbound matching. -/
def inboundPreds (s : Store) (nowMs : Nat) (destination : String) : List Prediction :=
  match getStorage storedTruthy s ("arrival:" ++ destination ++ ":recent") with
  | some (.arrival a) =>
    let diff : Int := (nowMs : Int) - (a.timestamp : Int)
    if diff ≤ 900000 then
      [{ method := "inbound_match", track := some a.track, tracks := [], confidence := 85,
         alternatives := none,
         reason := "Train arrived on Track " ++ a.track ++ " "
           ++ toString (jsRoundIntFrac diff 60000) ++ " min ago" }]
    else []
  | _ => []

/-- Method 2 of the predict handler (server.js 405-419): historical pattern for
a specific (truthy) train number, needing count >= 2. -/
def historicalPreds (s : Store) (dayOfWeek hour : Nat) (destination : String)
    (trainNum : Option String) : List Prediction :=
  if jsTruthyStr trainNum then
    match trainNum with
    | some tn =>
      match getStorage storedTruthy s (bucketKey destination dayOfWeek hour (some tn)) with
      | some (.pattern p) =>
        if 2 ≤ p.count then
          [{ method := "historical_pattern", track := some p.mostCommon, tracks := [],
             confidence := p.confidence, alternatives := some p.alternatives,
             reason := "Train #" ++ tn ++ " historically uses Track " ++ p.mostCommon
               ++ " (" ++ toString p.count ++ " times observed)" }]
        else []
      | _ => []
    | none => []
  else []

/-- Method 3 of the predict handler (server.js 421-429): static seed patterns. -/
def branchPreds (destination : String) : List Prediction :=
  match seedFor destination with
  | some seedTracks =>
    [{ method := "branch_pattern", track := none, tracks := seedTracks, confidence := 35,
       alternatives := none,
       reason := destination ++ " trains typically use tracks: " ++ joinNats seedTracks }]
  | none => []

/-- Stable insertion step for predictions.sort((a, b) => b.confidence - a.confidence). -/
def insertPredDesc (p : Prediction) : List Prediction → List Prediction
  | [] => [p]
  | q :: rest => if p.confidence < q.confidence then q :: insertPredDesc p rest else p :: q :: rest

/-- Stable descending sort on confidence. -/
def sortPredsDesc : List Prediction → List Prediction
  | [] => []
  | p :: rest => insertPredDesc p (sortPredsDesc rest)

/-- The predictions list served by GET /api/predict (server.js 372-445) for a
present destination: the three methods in order, then the stable descending
sort on confidence. -/
def predictHandler (s : Store) (nowMs : Nat) (destination : String)
    (trainNum : Option String) : List Prediction :=
  sortPredsDesc (inboundPreds s nowMs destination
    ++ historicalPreds s (jsGetDay nowMs) (jsGetHours nowMs) destination trainNum
    ++ branchPreds destination)

/-- Modelled from the spec: the tie-break C2 asserts — the most common track is
chosen by maximal count with ties broken by first-seen/insertion order of the
tracks, i.e. by a stable descending count sort of the insertion-ordered list. -/
def specFirstSeenMostCommon (p : TrainPattern) : String :=
  ((sortByCountDesc p.tracks).headD ("", 0)).1

/-- Modelled from the spec: the persisted-key grammar C4 asserts —
pattern:{destination}:{dayOfWeek}:{hour}:{trainNum}, arrival:{destination} for
a known destination, or stats:learning. -/
def destinationNames : List String := DESTINATIONS.map (fun kv => kv.2)

def claimedKeyForm (k : String) : Bool :=
  "pattern:".data.isPrefixOf k.data || destinationNames.any (fun d => k = "arrival:" ++ d)
    || k = "stats:learning"

/-- A departure observation of track 15 for Babylon train 2739 at epoch 0. -/
def cexAssignA : TrackAssignment :=
  { destination := "Babylon", track := "15", trainNum := some "2739", routeId := some "1",
    isArrival := false, isDeparture := true, timestamp := some 0 }

/-- The same observation with track 13. -/
def cexAssignB : TrackAssignment := { cexAssignA with track := "13" }

/-- An arrival observation (exercises the arrival:{destination}:recent write). -/
def cexArrivalAssign : TrackAssignment := { cexAssignA with isArrival := true }

/-- The store after observing track 15 and then track 13 under the same key. -/
def cexPatternStore : Store := storePattern cexAssignB (storePattern cexAssignA [])

/-- The pattern value that ends up stored in cexPatternStore. -/
def cexStoredPattern : TrainPattern :=
  { tracks := [("15", 1), ("13", 1)], mostCommon := "13", confidence := 50, count := 2,
    alternatives := [], lastSeen := 0 }

/-- The store holding one recent arrival for Babylon at epoch 0. -/
def cexArrStore : Store :=
  [("arrival:Babylon:recent",
    StoredValue.arrival { track := "13", timestamp := 0, trainNum := some "2739" })]

theorem mapGet_mapSet_self {α : Type} (s : StoreMap α) (k : String) (v : α) :
    mapGet (mapSet s k v) k = some v := by
  induction s with
  | nil => simp [mapSet, mapGet]
  | cons kv rest ih =>
    obtain ⟨k2, v2⟩ := kv
    by_cases h : k2 = k
    · simp [mapSet, mapGet, h]
    · simp [mapSet, mapGet, h, ih]

/-- C10: after setStorage(key, v), getStorage(key) returns v when v is truthy;
getStorage returns null (none) both for a key never set and for a key holding a
falsy value, so absent keys and stored falsy values are indistinguishable. -/
theorem storage_roundtrip (s : StoreMap JsValue) (k : String) (v : JsValue) :
    (jsTruthy v = true → getStorage jsTruthy (setStorage s k v).2 k = some v)
    ∧ (mapGet s k = none → getStorage jsTruthy s k = none)
    ∧ (jsTruthy v = false → getStorage jsTruthy (setStorage s k v).2 k = none) := by
  refine ⟨fun h => ?_, fun h => ?_, fun h => ?_⟩
  · simp [getStorage, setStorage, mapGet_mapSet_self, h]
  · simp [getStorage, h]
  · simp [getStorage, setStorage, mapGet_mapSet_self, h]

/-- Witness for C10 at concrete inputs: a stored object round-trips, a stored
false and a never-set key both read back as null. -/
theorem storage_roundtrip_witness :
    getStorage jsTruthy (setStorage [] "k" (JsValue.obj 0)).2 "k" = some (JsValue.obj 0)
    ∧ getStorage jsTruthy (setStorage [] "k" (JsValue.boolean false)).2 "k" = none
    ∧ getStorage jsTruthy ([] : StoreMap JsValue) "k" = none :=
  ⟨(storage_roundtrip [] "k" (JsValue.obj 0)).1 rfl,
   (storage_roundtrip [] "k" (JsValue.boolean false)).2.2 rfl,
   (storage_roundtrip [] "k" (JsValue.boolean false)).2.1 rfl⟩

/-- C6: the fetcher makes at most 3 attempts, waits 1000ms * 2^attempt between a
failed attempt and the next retry, returns null (none) instead of throwing when
every attempt fails, and increments failedFetches exactly once on terminal
failure and never on a run in which some attempt succeeds. -/
theorem fetchMTAData_spec (o : Nat → Option Nat) :
    (fetchMTAData o).attempts ≤ 3
    ∧ ((fetchMTAData o).result = none ↔ (o 0 = none ∧ o 1 = none ∧ o 2 = none))
    ∧ (fetchMTAData o).failedIncrement
        = (if o 0 = none ∧ o 1 = none ∧ o 2 = none then 1 else 0)
    ∧ (fetchMTAData o).sleeps
        = (if (o 0).isSome then [] else if (o 1).isSome then [1000] else [1000, 2000]) := by
  rcases h0 : o 0 with _ | p0 <;> rcases h1 : o 1 with _ | p1 <;> rcases h2 : o 2 with _ | p2 <;>
    simp [fetchMTAData, fetchAux, h0, h1, h2]

theorem checkValid_valid {cand : Option String} {t : String}
    (h : checkValid cand = some t) : isValidTrack t = true := by
  match cand with
  | none => simp [checkValid] at h
  | some u =>
    by_cases hv : isValidTrack u
    · simp [checkValid, hv] at h
      exact h ▸ hv
    · simp [checkValid, hv] at h

/-- C8: track extraction applies the prefixed-token rule first, then the
trailing digit run, then the first embedded digit run, returning only codes
valid in the 1..21 platform range; NYK_13 yields 13, something9 yields 9, and
the concrete strings 7NY_13x9 and 7ax9 exercise the priority order. -/
theorem extractTrack_spec :
    extractTrack "NYK_13" = some "13"
    ∧ extractTrack "something9" = some "9"
    ∧ extractTrack "7NY_13x9" = some "13"
    ∧ extractTrack "7ax9" = some "9"
    ∧ ∀ s t, extractTrack s = some t → isValidTrack t = true := by
  refine ⟨by decide, by decide, by decide, by decide, fun s t h => ?_⟩
  unfold extractTrack at h
  split at h
  · exact absurd h (by simp)
  · split at h
    next heq => exact checkValid_valid (heq.trans h)
    next =>
      split at h
      next heq => exact checkValid_valid (heq.trans h)
      next => exact checkValid_valid h

/-- Witness for C8: the validity guarantee applied at the concrete extraction
from NYK_13. -/
theorem extractTrack_spec_witness : isValidTrack "13" = true :=
  extractTrack_spec.2.2.2.2 "NYK_13" "13" (by decide)

/-- Counterexample to C3 as stated: an observation with neither an arrival nor
a departure time is not discarded — parseFeed emits it, with both flags false
and an invalid timestamp. -/
theorem parseFeed_no_times_not_discarded :
    parseFeed cexFeedNoTimes
      = [{ destination := "Babylon", track := "13", trainNum := some "2739",
           routeId := some "1", isArrival := false, isDeparture := false,
           timestamp := none }] := by
  decide

/-- C3 (amended): every parser output comes from a stop of the feed via stopObs;
it is flagged an arrival exactly when an arrival time is present and no
departure time is, and a departure exactly when a departure time is present;
and emission depends only on the platform code, its validity and a resolved
destination — a stop with neither time is still emitted (with both flags false)
rather than discarded. -/
theorem parseFeed_classification :
    (∀ (feed : List FeedEntity) (a : TrackAssignment), a ∈ parseFeed feed →
      ∃ e ∈ feed, ∃ tu, e.tripUpdate = some tu ∧ ∃ stop ∈ tu.stopTimeUpdate,
        stopObs (destinationFor tu.routeId) (trainNumOf tu.tripId) tu.routeId stop = some a)
    ∧ (∀ (dest tn rid : Option String) (stop : StopTimeUpdate) (a : TrackAssignment),
        stopObs dest tn rid stop = some a →
          a.isArrival = (jsTruthyNat stop.arrivalTime && !jsTruthyNat stop.departureTime)
          ∧ a.isDeparture = jsTruthyNat stop.departureTime)
    ∧ (∀ (dest tn rid : Option String) (stop : StopTimeUpdate),
        (stopObs dest tn rid stop).isSome =
          (match stop.platformCode with
           | some pc => !(pc == "") && isValidTrack pc && dest.isSome
           | none => false)) := by
  refine ⟨fun feed a ha => ?_, fun dest tn rid stop a h => ?_, fun dest tn rid stop => ?_⟩
  · unfold parseFeed at ha
    rw [List.mem_flatMap] at ha
    obtain ⟨e, he, ha⟩ := ha
    refine ⟨e, he, ?_⟩
    match hu : e.tripUpdate with
    | none => rw [hu] at ha; simp at ha
    | some tu =>
      rw [hu] at ha
      rw [List.mem_filterMap] at ha
      obtain ⟨stop, hs, hobs⟩ := ha
      exact ⟨tu, rfl, stop, hs, hobs⟩
  · unfold stopObs at h
    match hpc : stop.platformCode with
    | none => rw [hpc] at h; simp at h
    | some pc =>
      rw [hpc] at h
      simp only [] at h
      by_cases hem : pc = ""
      · simp [hem] at h
      · rw [if_neg hem] at h
        by_cases hv : isValidTrack pc
        · rw [if_pos hv] at h
          match dest with
          | none => simp at h
          | some d =>
            simp only [Option.some.injEq] at h
            subst h
            exact ⟨rfl, rfl⟩
        · simp [hv] at h
  · unfold stopObs
    match hpc : stop.platformCode with
    | none => simp
    | some pc =>
      simp only []
      by_cases hem : pc = ""
      · simp [hem]
      · rw [if_neg hem]
        by_cases hv : isValidTrack pc
        · rw [if_pos hv]
          match dest with
          | none => simp [hem, hv]
          | some d => simp [hem, hv]
        · simp [hem, hv]

/-- Witness for C3 at a concrete input: the classification equalities applied
to the stop of cexFeedNoTimes via its parseFeed provenance. -/
theorem parseFeed_classification_witness :
    ({ destination := "Babylon", track := "13", trainNum := some "2739",
       routeId := some "1", isArrival := false, isDeparture := false,
       timestamp := none } : TrackAssignment).isArrival
        = (jsTruthyNat cexStopNoTimes.arrivalTime && !jsTruthyNat cexStopNoTimes.departureTime) :=
  (parseFeed_classification.2.1 (some "Babylon") (some "2739") (some "1")
    cexStopNoTimes _ (by decide)).1

theorem getStorage_storedTruthy (s : Store) (k : String) :
    getStorage storedTruthy s k = mapGet s k := by
  unfold getStorage
  cases mapGet s k with
  | none => rfl
  | some v => simp [storedTruthy]

theorem insertByCountDesc_perm (p : String × Nat) (l : List (String × Nat)) :
    List.Perm (insertByCountDesc p l) (p :: l) := by
  induction l with
  | nil => simp [insertByCountDesc]
  | cons q rest ih =>
    by_cases h : p.2 < q.2
    · simp only [insertByCountDesc, if_pos h]
      exact (ih.cons q).trans (List.Perm.swap p q rest)
    · simp only [insertByCountDesc, if_neg h]
      exact List.Perm.refl _

theorem sortByCountDesc_perm (l : List (String × Nat)) :
    List.Perm (sortByCountDesc l) l := by
  induction l with
  | nil => simp [sortByCountDesc]
  | cons p rest ih =>
    exact (insertByCountDesc_perm p (sortByCountDesc rest)).trans (ih.cons p)

theorem insertByKeyAsc_perm (p : String × Nat) (l : List (String × Nat)) :
    List.Perm (insertByKeyAsc p l) (p :: l) := by
  induction l with
  | nil => simp [insertByKeyAsc]
  | cons q rest ih =>
    by_cases h : keyNum q.1 < keyNum p.1
    · simp only [insertByKeyAsc, if_pos h]
      exact (ih.cons q).trans (List.Perm.swap p q rest)
    · simp only [insertByKeyAsc, if_neg h]
      exact List.Perm.refl _

theorem sortByKeyAsc_perm (l : List (String × Nat)) :
    List.Perm (sortByKeyAsc l) l := by
  induction l with
  | nil => simp [sortByKeyAsc]
  | cons p rest ih =>
    exact (insertByKeyAsc_perm p (sortByKeyAsc rest)).trans (ih.cons p)

theorem jsEntries_perm (l : List (String × Nat)) : List.Perm (jsEntries l) l := by
  unfold jsEntries
  exact ((sortByKeyAsc_perm _).append_right _).trans (List.filter_append_perm _ l)

theorem insertByCountDesc_pairwise {p : String × Nat} {l : List (String × Nat)}
    (h : l.Pairwise (fun x y => y.2 ≤ x.2)) :
    (insertByCountDesc p l).Pairwise (fun x y => y.2 ≤ x.2) := by
  induction l with
  | nil => simp [insertByCountDesc]
  | cons q rest ih =>
    rw [List.pairwise_cons] at h
    obtain ⟨hq, hrest⟩ := h
    by_cases hlt : p.2 < q.2
    · simp only [insertByCountDesc, if_pos hlt]
      rw [List.pairwise_cons]
      refine ⟨fun b hb => ?_, ih hrest⟩
      rcases List.mem_cons.mp ((insertByCountDesc_perm p rest).mem_iff.mp hb) with rfl | hbr
      · exact le_of_lt hlt
      · exact hq b hbr
    · simp only [insertByCountDesc, if_neg hlt]
      rw [List.pairwise_cons]
      refine ⟨fun b hb => ?_, List.pairwise_cons.mpr ⟨hq, hrest⟩⟩
      rcases List.mem_cons.mp hb with rfl | hbr
      · exact Nat.le_of_not_lt hlt
      · exact le_trans (hq b hbr) (Nat.le_of_not_lt hlt)

theorem sortByCountDesc_pairwise (l : List (String × Nat)) :
    (sortByCountDesc l).Pairwise (fun x y => y.2 ≤ x.2) := by
  induction l with
  | nil => simp [sortByCountDesc]
  | cons p rest ih => exact insertByCountDesc_pairwise ih

theorem bumpTrack_ne_nil (l : List (String × Nat)) (t : String) : bumpTrack l t ≠ [] := by
  cases l with
  | nil => simp [bumpTrack]
  | cons q rest =>
    obtain ⟨t2, c⟩ := q
    by_cases h : t2 = t <;> simp [bumpTrack, h]

theorem bumpTrack_keys_mem (l : List (String × Nat)) (t : String) (x : String) :
    x ∈ (bumpTrack l t).map Prod.fst ↔ x ∈ l.map Prod.fst ∨ x = t := by
  induction l with
  | nil => simp [bumpTrack]
  | cons q rest ih =>
    obtain ⟨t2, c⟩ := q
    by_cases h : t2 = t
    · subst h
      have hbt : bumpTrack ((t2, c) :: rest) t2 = (t2, c + 1) :: rest := by
        simp [bumpTrack]
      rw [hbt]
      simp only [List.map_cons, List.mem_cons]
      tauto
    · have hbt : bumpTrack ((t2, c) :: rest) t = (t2, c) :: bumpTrack rest t := by
        simp [bumpTrack, h]
      rw [hbt]
      simp only [List.map_cons, List.mem_cons, ih]
      tauto

theorem bumpTrack_keys_nodup {l : List (String × Nat)} (t : String)
    (h : (l.map Prod.fst).Nodup) : ((bumpTrack l t).map Prod.fst).Nodup := by
  induction l with
  | nil => simp [bumpTrack]
  | cons q rest ih =>
    obtain ⟨t2, c⟩ := q
    rw [List.map_cons, List.nodup_cons] at h
    obtain ⟨hnotin, hnd⟩ := h
    by_cases heq : t2 = t
    · subst heq
      have hbt : bumpTrack ((t2, c) :: rest) t2 = (t2, c + 1) :: rest := by
        simp [bumpTrack]
      rw [hbt, List.map_cons, List.nodup_cons]
      exact ⟨hnotin, hnd⟩
    · have hbt : bumpTrack ((t2, c) :: rest) t = (t2, c) :: bumpTrack rest t := by
        simp [bumpTrack, heq]
      rw [hbt, List.map_cons, List.nodup_cons]
      refine ⟨fun hmem => ?_, ih hnd⟩
      rcases (bumpTrack_keys_mem rest t t2).mp hmem with hin | heq2
      · exact hnotin hin
      · exact heq heq2

theorem updatePattern_invariants (p0 : TrainPattern) (track : String) (tsMs : Nat)
    (hnd : (p0.tracks.map Prod.fst).Nodup) :
    (∃ c, ((updatePattern p0 track tsMs).mostCommon, c) ∈ (updatePattern p0 track tsMs).tracks
      ∧ (∀ kv ∈ (updatePattern p0 track tsMs).tracks, kv.2 ≤ c)
      ∧ (updatePattern p0 track tsMs).confidence
          = min 95 (jsRoundFrac c (updatePattern p0 track tsMs).count))
    ∧ (updatePattern p0 track tsMs).confidence ≤ 95
    ∧ (updatePattern p0 track tsMs).confidence < 100
    ∧ (∃ pairs : List (String × Nat),
        pairs.map Prod.fst = (updatePattern p0 track tsMs).alternatives
        ∧ pairs.Pairwise (fun x y => y.2 ≤ x.2)
        ∧ ∀ kv ∈ pairs, kv ∈ (updatePattern p0 track tsMs).tracks ∧ 1 < kv.2
            ∧ kv.1 ≠ (updatePattern p0 track tsMs).mostCommon) := by
  have hne : bumpTrack p0.tracks track ≠ [] := bumpTrack_ne_nil _ _
  have hperm : List.Perm (sortByCountDesc (jsEntries (bumpTrack p0.tracks track)))
      (bumpTrack p0.tracks track) :=
    (sortByCountDesc_perm _).trans (jsEntries_perm _)
  have hsne : sortByCountDesc (jsEntries (bumpTrack p0.tracks track)) ≠ [] := by
    intro h0
    apply hne
    have hl := hperm.length_eq
    rw [h0] at hl
    exact List.length_eq_zero.mp hl.symm
  obtain ⟨top, tail, hsorted⟩ := List.exists_cons_of_ne_nil hsne
  have hpw := sortByCountDesc_pairwise (jsEntries (bumpTrack p0.tracks track))
  have hkeysnd : ((sortByCountDesc (jsEntries (bumpTrack p0.tracks track))).map Prod.fst).Nodup :=
    ((hperm.map Prod.fst).nodup_iff).mpr (bumpTrack_keys_nodup track hnd)
  rw [hsorted] at hperm hpw hkeysnd
  rw [List.pairwise_cons] at hpw
  rw [List.map_cons, List.nodup_cons] at hkeysnd
  simp only [updatePattern, hsorted, List.headD_cons, List.drop_succ_cons, List.drop_zero]
  refine ⟨⟨top.2, ?_, ?_, rfl⟩, Nat.min_le_left _ _,
    lt_of_le_of_lt (Nat.min_le_left _ _) (by norm_num),
    ⟨tail.filter (fun kv => decide (1 < kv.2)), rfl, ?_, ?_⟩⟩
  · rw [Prod.mk.eta]
    exact hperm.mem_iff.mp (List.mem_cons_self top tail)
  · intro kv hkv
    rcases List.mem_cons.mp (hperm.mem_iff.mpr hkv) with rfl | htail
    · exact le_refl _
    · exact hpw.1 kv htail
  · exact hpw.2.sublist (List.filter_sublist tail)
  · intro kv hkv
    obtain ⟨htail, hcnt⟩ := List.mem_filter.mp hkv
    refine ⟨hperm.mem_iff.mp (List.mem_cons_of_mem top htail), by simpa using hcnt, fun heq => ?_⟩
    exact hkeysnd.1 (heq ▸ List.mem_map_of_mem Prod.fst htail)

/-- Counterexample to C2 as stated: observing track 15 and then track 13 under
the same key leaves both counts tied at the maximum 1; first-seen/insertion
order would pick 15 (specFirstSeenMostCommon), but the stored mostCommon is 13,
because Object.entries enumerates the numeric track keys in ascending numeric
order before the stable sort runs. -/
theorem storePattern_tiebreak_cex :
    mapGet cexPatternStore "track:Babylon:4:0:2739" = some (StoredValue.pattern cexStoredPattern)
    ∧ cexStoredPattern.tracks = [("15", 1), ("13", 1)]
    ∧ specFirstSeenMostCommon cexStoredPattern = "15"
    ∧ cexStoredPattern.mostCommon = "13" := by
  refine ⟨by decide, rfl, by decide, rfl⟩

/-- C2 (amended): after every storePattern call (on a store whose patterns have
duplicate-free track keys, as all reachable stores do) the stored TrainPattern
satisfies: mostCommon is a track whose count in tracks is maximal — ties broken
by the JS object enumeration order of the keys (ascending numeric order for
numeric track codes), not by first-seen order; confidence equals
min(95, round(maxCount / count * 100)), hence is at most 95 and never 100; and
alternatives lists non-mostCommon tracks with count greater than 1 in
descending frequency. -/
theorem storePattern_stored_invariants (a : TrackAssignment) (s : Store) (ts : Nat)
    (hwf : ∀ k p, mapGet s k = some (StoredValue.pattern p) → (p.tracks.map Prod.fst).Nodup)
    (hts : a.timestamp = some ts) :
    ∀ k p, (k, StoredValue.pattern p) ∈ storePatternWrites a s →
      (∃ c, (p.mostCommon, c) ∈ p.tracks
        ∧ (∀ kv ∈ p.tracks, kv.2 ≤ c)
        ∧ p.confidence = min 95 (jsRoundFrac c p.count))
      ∧ p.confidence ≤ 95
      ∧ p.confidence < 100
      ∧ (∃ pairs : List (String × Nat),
          pairs.map Prod.fst = p.alternatives
          ∧ pairs.Pairwise (fun x y => y.2 ≤ x.2)
          ∧ ∀ kv ∈ pairs, kv ∈ p.tracks ∧ 1 < kv.2 ∧ kv.1 ≠ p.mostCommon) := by
  intro k p hmem
  unfold storePatternWrites at hmem
  rw [hts] at hmem
  simp only [] at hmem
  rcases List.mem_cons.mp hmem with heq | htail
  · rw [Prod.mk.injEq] at heq
    obtain ⟨hk, hv⟩ := heq
    have hp : p = updatePattern
        (match getStorage storedTruthy s
            (bucketKey a.destination (jsGetDay ts) (jsGetHours ts) a.trainNum) with
          | some (.pattern q) => q
          | _ => initPattern a.track ts) a.track ts := by
      injection hv
    have hnd : (((match getStorage storedTruthy s
            (bucketKey a.destination (jsGetDay ts) (jsGetHours ts) a.trainNum) with
          | some (.pattern q) => q
          | _ => initPattern a.track ts) : TrainPattern).tracks.map Prod.fst).Nodup := by
      rw [getStorage_storedTruthy]
      cases hm : mapGet s (bucketKey a.destination (jsGetDay ts) (jsGetHours ts) a.trainNum) with
      | none => simp [initPattern]
      | some v =>
        cases v with
        | pattern q => simpa using hwf _ q hm
        | arrival q => simp [initPattern]
        | stats q => simp [initPattern]
    rw [hp]
    exact updatePattern_invariants _ a.track ts hnd
  · cases hb : a.isArrival
    · rw [hb] at htail
      simp at htail
    · rw [hb] at htail
      simp at htail

/-- Witness for C2: the invariants instantiated at the first Babylon
observation of track 15 written to the empty store. -/
theorem storePattern_stored_invariants_witness :
    (∃ c, ((updatePattern (initPattern "15" 0) "15" 0).mostCommon, c)
        ∈ (updatePattern (initPattern "15" 0) "15" 0).tracks
      ∧ (∀ kv ∈ (updatePattern (initPattern "15" 0) "15" 0).tracks, kv.2 ≤ c)
      ∧ (updatePattern (initPattern "15" 0) "15" 0).confidence
          = min 95 (jsRoundFrac c (updatePattern (initPattern "15" 0) "15" 0).count))
    ∧ (updatePattern (initPattern "15" 0) "15" 0).confidence ≤ 95
    ∧ (updatePattern (initPattern "15" 0) "15" 0).confidence < 100
    ∧ (∃ pairs : List (String × Nat),
        pairs.map Prod.fst = (updatePattern (initPattern "15" 0) "15" 0).alternatives
        ∧ pairs.Pairwise (fun x y => y.2 ≤ x.2)
        ∧ ∀ kv ∈ pairs, kv ∈ (updatePattern (initPattern "15" 0) "15" 0).tracks ∧ 1 < kv.2
            ∧ kv.1 ≠ (updatePattern (initPattern "15" 0) "15" 0).mostCommon) :=
  storePattern_stored_invariants cexAssignA [] 0
    (by intro k p h; simp [mapGet] at h) rfl
    "track:Babylon:4:0:2739" (updatePattern (initPattern "15" 0) "15" 0) (by decide)

/-- Counterexample to C4 as stated: storePattern persists under a track: key
and an arrival:{destination}:recent key, neither of which matches the claimed
pattern:/arrival:{destination}/stats:learning grammar. -/
theorem storePattern_keys_cex :
    (storePatternWrites cexArrivalAssign []).map Prod.fst
      = ["track:Babylon:4:0:2739", "arrival:Babylon:recent"]
    ∧ claimedKeyForm "track:Babylon:4:0:2739" = false
    ∧ claimedKeyForm "arrival:Babylon:recent" = false := by
  refine ⟨by decide, by decide, by decide⟩

/-- C4 (amended): every key persisted by storePattern has the form
track:{destination}:{dayOfWeek}:{hour}:{trainNum} (with dayOfWeek < 7 and
hour < 24) or arrival:{destination}:recent, and updateStats persists exactly
the key stats:learning. -/
theorem persisted_key_forms :
    (∀ (a : TrackAssignment) (s : Store) (k : String),
        k ∈ (storePatternWrites a s).map Prod.fst →
          (∃ dow hour, dow < 7 ∧ hour < 24
            ∧ k = "track:" ++ a.destination ++ ":" ++ toString dow ++ ":" ++ toString hour
                ++ ":" ++ trainNumStr a.trainNum)
          ∨ k = "arrival:" ++ a.destination ++ ":recent")
    ∧ (∀ (now1 now2 : Nat) (st : StatsObj) (s : Store),
        (updateStats now1 now2 st s).2
          = mapSet s "stats:learning" (StoredValue.stats (updateStats now1 now2 st s).1)) := by
  constructor
  · intro a s k hk
    unfold storePatternWrites at hk
    cases hts : a.timestamp with
    | none => rw [hts] at hk; simp at hk
    | some ts =>
      rw [hts] at hk
      cases hb : a.isArrival <;> rw [hb] at hk <;> simp [bucketKey] at hk
      · left
        exact ⟨jsGetDay ts, jsGetHours ts, Nat.mod_lt _ (by norm_num),
          Nat.mod_lt _ (by norm_num), by simp [hk, bucketKey]⟩
      · rcases hk with hk | hk
        · left
          exact ⟨jsGetDay ts, jsGetHours ts, Nat.mod_lt _ (by norm_num),
            Nat.mod_lt _ (by norm_num), by simp [hk, bucketKey]⟩
        · right
          simp [hk]
  · intro now1 now2 st s
    rfl

/-- Witness for C4: the key-form disjunction instantiated at the pattern key
written for the concrete arrival observation. -/
theorem persisted_key_forms_witness :
    (∃ dow hour, dow < 7 ∧ hour < 24
      ∧ "track:Babylon:4:0:2739" = "track:" ++ cexArrivalAssign.destination ++ ":"
          ++ toString dow ++ ":" ++ toString hour ++ ":" ++ trainNumStr cexArrivalAssign.trainNum)
    ∨ "track:Babylon:4:0:2739" = "arrival:" ++ cexArrivalAssign.destination ++ ":recent" :=
  persisted_key_forms.1 cexArrivalAssign [] "track:Babylon:4:0:2739" (by decide)

/-- C1 (code-bug exhibit): updateStats refreshes lastUpdate to the current
clock before the staleness comparison, so every recomputation yields
isHealthy = true no matter how stale the previous update was; concretely, with
the previous update at epoch 0 and the cycle recomputing 10 minutes later,
isHealthy is still true (the claim requires false), and the health endpoint's
stale status is unreachable. -/
theorem updateStats_always_healthy :
    (∀ (st : StatsObj) (s : Store) (n : Nat), ((updateStats n n st s).1).isHealthy = true)
    ∧ ((updateStats 600000000 600000000
          { totalPatterns := 0, lastUpdate := some 0, successfulFetches := 0,
            failedFetches := 0, isHealthy := true } []).1).isHealthy = true
    ∧ ((updateStats 600000000 600000000
          { totalPatterns := 0, lastUpdate := some 0, successfulFetches := 0,
            failedFetches := 0, isHealthy := true } []).1).lastUpdate = some 600000000 := by
  refine ⟨fun st s n => ?_, by decide, rfl⟩
  simp [updateStats]

/-- The sleep at the end of a cycle happens on both the normal and the caught
path. -/
theorem learningCycle_sleep (env : CycleOutcome) (st : StatsObj) (s : Store) :
    (learningCycle env st s).2 = 30000 := by
  unfold learningCycle
  cases env.thrown <;> rfl

/-- C9: an error thrown anywhere inside a learning cycle is caught at the loop
boundary and counted by failedFetches + 1 with the store untouched, the cycle
never propagates the error, and after any number of cycles the loop has slept
exactly once per cycle — it always proceeds to the next cycle. -/
theorem learningLoop_catches (envs : Nat → CycleOutcome) (env : CycleOutcome)
    (e : String) (st : StatsObj) (s : Store) (n : Nat) :
    learningCycle { env with thrown := some e } st s
      = (({ st with failedFetches := st.failedFetches + 1 }, s), 30000)
    ∧ (learningLoopRun envs n).2 = List.replicate n 30000 := by
  constructor
  · rfl
  · induction n with
    | zero => rfl
    | succ m ih =>
      simp only [learningLoopRun, ih, learningCycle_sleep]
      rw [← List.replicate_succ']

theorem insertPredDesc_perm (p : Prediction) (l : List Prediction) :
    List.Perm (insertPredDesc p l) (p :: l) := by
  induction l with
  | nil => simp [insertPredDesc]
  | cons q rest ih =>
    by_cases h : p.confidence < q.confidence
    · simp only [insertPredDesc, if_pos h]
      exact (ih.cons q).trans (List.Perm.swap p q rest)
    · simp only [insertPredDesc, if_neg h]
      exact List.Perm.refl _

theorem sortPredsDesc_perm (l : List Prediction) : List.Perm (sortPredsDesc l) l := by
  induction l with
  | nil => simp [sortPredsDesc]
  | cons p rest ih =>
    exact (insertPredDesc_perm p (sortPredsDesc rest)).trans (ih.cons p)

theorem mem_inboundPreds {s : Store} {nowMs : Nat} {d : String} {p : Prediction} :
    p ∈ inboundPreds s nowMs d ↔
      ∃ a, getStorage storedTruthy s ("arrival:" ++ d ++ ":recent")
          = some (StoredValue.arrival a)
        ∧ (nowMs : Int) - (a.timestamp : Int) ≤ 900000
        ∧ p = { method := "inbound_match", track := some a.track, tracks := [],
                confidence := 85, alternatives := none,
                reason := "Train arrived on Track " ++ a.track ++ " "
                  ++ toString (jsRoundIntFrac ((nowMs : Int) - (a.timestamp : Int)) 60000)
                  ++ " min ago" } := by
  unfold inboundPreds
  cases hg : getStorage storedTruthy s ("arrival:" ++ d ++ ":recent") with
  | none => simp
  | some v =>
    cases v with
    | pattern q => simp
    | stats q => simp
    | arrival a =>
      by_cases hle : (nowMs : Int) - (a.timestamp : Int) ≤ 900000
      · simp only [if_pos hle, List.mem_singleton, Option.some.injEq, StoredValue.arrival.injEq]
        constructor
        · intro hp
          exact ⟨a, rfl, hle, hp⟩
        · rintro ⟨a2, rfl, _, hp⟩
          exact hp
      · simp only [if_neg hle, Option.some.injEq, StoredValue.arrival.injEq]
        constructor
        · intro hp
          exact absurd hp (List.not_mem_nil p)
        · rintro ⟨a2, rfl, hle2, hp⟩
          exact absurd hle2 hle

theorem historicalPreds_method (s : Store) (dayOfWeek hour : Nat) (d : String)
    (tn : Option String) (p : Prediction) (h : p ∈ historicalPreds s dayOfWeek hour d tn) :
    p.method = "historical_pattern" := by
  unfold historicalPreds at h
  by_cases ht : jsTruthyStr tn
  · rw [if_pos ht] at h
    cases tn with
    | none => simp at h
    | some tn2 =>
      simp only [] at h
      cases hg : getStorage storedTruthy s (bucketKey d dayOfWeek hour (some tn2)) with
      | none => rw [hg] at h; simp at h
      | some v =>
        rw [hg] at h
        cases v with
        | pattern q =>
          simp only [] at h
          by_cases hc : 2 ≤ q.count
          · rw [if_pos hc] at h
            have hp := List.mem_singleton.mp h
            rw [hp]
          · rw [if_neg hc] at h
            simp at h
        | arrival q => simp at h
        | stats q => simp at h
  · rw [if_neg ht] at h
    simp at h

theorem branchPreds_method (d : String) (p : Prediction) (h : p ∈ branchPreds d) :
    p.method = "branch_pattern" := by
  unfold branchPreds at h
  cases hs : seedFor d with
  | none => rw [hs] at h; simp at h
  | some seedTracks =>
    rw [hs] at h
    simp only [] at h
    have hp := List.mem_singleton.mp h
    rw [hp]

theorem mem_predictHandler {s : Store} {nowMs : Nat} {d : String} {tn : Option String}
    {p : Prediction} :
    p ∈ predictHandler s nowMs d tn ↔
      p ∈ inboundPreds s nowMs d
        ∨ p ∈ historicalPreds s (jsGetDay nowMs) (jsGetHours nowMs) d tn
        ∨ p ∈ branchPreds d := by
  unfold predictHandler
  rw [(sortPredsDesc_perm _).mem_iff]
  simp [List.mem_append, or_assoc]

/-- C5: an inbound-match prediction is emitted iff a RecentArrival exists for
the destination and its age is at most 15 minutes (diff <= 900000 ms, so an
arrival aged exactly 15 minutes is still eligible), and every emitted
inbound-match prediction reuses that arrival's track at confidence 85. -/
theorem predict_inbound_iff (s : Store) (nowMs : Nat) (d : String) (tn : Option String) :
    ((∃ p ∈ predictHandler s nowMs d tn, p.method = "inbound_match") ↔
      ∃ a, getStorage storedTruthy s ("arrival:" ++ d ++ ":recent")
          = some (StoredValue.arrival a)
        ∧ (nowMs : Int) - (a.timestamp : Int) ≤ 900000)
    ∧ (∀ p ∈ predictHandler s nowMs d tn, p.method = "inbound_match" →
        ∃ a, getStorage storedTruthy s ("arrival:" ++ d ++ ":recent")
            = some (StoredValue.arrival a)
          ∧ (nowMs : Int) - (a.timestamp : Int) ≤ 900000
          ∧ p.track = some a.track ∧ p.confidence = 85) := by
  constructor
  · constructor
    · rintro ⟨p, hp, hm⟩
      rcases mem_predictHandler.mp hp with hin | hhist | hbr
      · rcases mem_inboundPreds.mp hin with ⟨a, hg, hle, rfl⟩
        exact ⟨a, hg, hle⟩
      · have hh := historicalPreds_method _ _ _ _ _ _ hhist
        rw [hm] at hh
        exact absurd hh (by decide)
      · have hh := branchPreds_method _ _ hbr
        rw [hm] at hh
        exact absurd hh (by decide)
    · rintro ⟨a, hg, hle⟩
      refine ⟨_, mem_predictHandler.mpr (Or.inl (mem_inboundPreds.mpr ⟨a, hg, hle, rfl⟩)), rfl⟩
  · intro p hp hm
    rcases mem_predictHandler.mp hp with hin | hhist | hbr
    · rcases mem_inboundPreds.mp hin with ⟨a, hg, hle, rfl⟩
      exact ⟨a, hg, hle, rfl, rfl⟩
    · have hh := historicalPreds_method _ _ _ _ _ _ hhist
      rw [hm] at hh
      exact absurd hh (by decide)
    · have hh := branchPreds_method _ _ hbr
      rw [hm] at hh
      exact absurd hh (by decide)

/-- Witness for C5: an arrival stored at epoch 0 still yields an inbound-match
prediction when queried exactly 15 minutes (900000 ms) later. -/
theorem predict_inbound_iff_witness :
    ∃ p ∈ predictHandler cexArrStore 900000 "Babylon" none, p.method = "inbound_match" :=
  (predict_inbound_iff cexArrStore 900000 "Babylon" none).1.mpr
    ⟨{ track := "13", timestamp := 0, trainNum := some "2739" }, by decide, by decide⟩

/-- C7: a branch/seed prediction at confidence 35 is included whenever the seed
table has the destination, whatever else the store holds (so also when inbound
or historical methods fired); and for Babylon against an empty store the
handler returns exactly one prediction, method branch_pattern, confidence 35. -/
theorem predict_branch_seed :
    (∀ (s : Store) (nowMs : Nat) (d : String) (tn : Option String) (seed : List Nat),
        seedFor d = some seed →
          ({ method := "branch_pattern", track := none, tracks := seed, confidence := 35,
             alternatives := none,
             reason := d ++ " trains typically use tracks: " ++ joinNats seed } : Prediction)
            ∈ predictHandler s nowMs d tn)
    ∧ predictHandler [] 0 "Babylon" none
        = [{ method := "branch_pattern", track := none, tracks := [13, 15, 17], confidence := 35,
             alternatives := none,
             reason := "Babylon trains typically use tracks: 13, 15, 17" }] := by
  constructor
  · intro s nowMs d tn seed hseed
    apply mem_predictHandler.mpr
    right
    right
    unfold branchPreds
    rw [hseed]
    exact List.mem_singleton.mpr rfl
  · decide

/-- Witness for C7: the seed inclusion applied for Babylon over the store that
already holds a recent arrival (the inbound method fires as well). -/
theorem predict_branch_seed_witness :
    ({ method := "branch_pattern", track := none, tracks := [13, 15, 17], confidence := 35,
       alternatives := none,
       reason := "Babylon" ++ " trains typically use tracks: " ++ joinNats [13, 15, 17] } :
        Prediction)
      ∈ predictHandler cexArrStore 5 "Babylon" none :=
  predict_branch_seed.1 cexArrStore 5 "Babylon" none [13, 15, 17] (by decide)
